import Mathlib

/-!
Verification of the Document-Intelligence-System retrieval pipeline
(`backend/main.py`, `backend/rag/{embeddings,indexing,retrieval,answering}.py`).

The Python code manipulates JSON-like dictionaries (chunk records, index
metadata rows, search results, parsed generation output).  We embed those as
a `JValue` type, with top-level dictionaries as association lists, and embed
each function of the source over that data model.  External collaborators
(the PDF text extractor, the embedding model, the FAISS similarity engine and
the generative model) are passed in as parameters, constrained only by their
interface contracts.
-/

mutual
/-- JSON-like values: the data manipulated by the pipeline.  Numbers are
modelled as integers (every number the pipeline itself creates — `chunk_id`,
`page_number`, FAISS row ids — is an integer; similarity scores are carried
through opaquely). -/
inductive JValue where
  | null
  | bool (b : Bool)
  | num (n : Int)
  | str (s : String)
  | arr (elems : JArr)
  | obj (fields : JObj)
deriving DecidableEq
/-- A JSON array nested inside a `JValue`. -/
inductive JArr where
  | nil
  | cons (head : JValue) (tail : JArr)
deriving DecidableEq
/-- A JSON object nested inside a `JValue`. -/
inductive JObj where
  | nil
  | cons (key : String) (value : JValue) (tail : JObj)
deriving DecidableEq
end

/-- A Python dictionary with string keys, as an association list. -/
abbrev Dict := List (String × JValue)

/-- View a nested JSON array as a list of values. -/
def JArr.toList : JArr → List JValue
  | .nil => []
  | .cons v rest => v :: rest.toList

/-- View a nested JSON object as a dictionary. -/
def JObj.toList : JObj → Dict
  | .nil => []
  | .cons k v rest => (k, v) :: rest.toList

/-- Build a nested JSON array from a list of values. -/
def JArr.ofList : List JValue → JArr
  | [] => .nil
  | v :: rest => .cons v (JArr.ofList rest)

/-- Build a nested JSON object from a dictionary. -/
def JObj.ofList : Dict → JObj
  | [] => .nil
  | (k, v) :: rest => .cons k v (JObj.ofList rest)

/-- Python `x in l` on a list/set of JSON values (`any` of `==`). -/
def pyIn (x : JValue) (l : List JValue) : Bool := l.any (fun e => e = x)

theorem pyIn_iff_mem (x : JValue) (l : List JValue) : pyIn x l = true ↔ x ∈ l := by
  simp [pyIn]

/-- `d.get(key)`: first binding of `key` in the dictionary, if any. -/
def dictGet (d : Dict) (key : String) : Option JValue :=
  match d with
  | [] => none
  | (k, v) :: rest => if k = key then some v else dictGet rest key

/-- `key in d`. -/
def dictHasKey (d : Dict) (key : String) : Bool := (dictGet d key).isSome

/-- Python truthiness of a JSON value (`if uid:`). -/
def pyTruthy : JValue → Bool
  | .null => false
  | .bool b => b
  | .num n => n ≠ 0
  | .str s => s ≠ ""
  | .arr xs => xs ≠ .nil
  | .obj fs => fs ≠ .nil

/-- Python `str()` of a JSON value, as used on `chunk_uid`s.  Containers get a
placeholder (Python would print their repr; no chunk_uid produced by this
pipeline is ever a container). -/
def pyStrOf : JValue → String
  | .null => "None"
  | .bool b => if b then "True" else "False"
  | .num n => toString n
  | .str s => s
  | .arr _ => "[list]"
  | .obj _ => "[dict]"

/-- The characters Python `str.strip()` removes. -/
def isPySpace (c : Char) : Bool :=
  c = ' ' ∨ c = '\t' ∨ c = '\n' ∨ c = '\r' ∨ c = '\x0b' ∨ c = '\x0c'

/-- Python `s.strip()`. -/
def pyStrip (s : String) : String :=
  String.mk (((s.data.dropWhile isPySpace).reverse.dropWhile isPySpace).reverse)

/-! ## Chunker — `chunk_text` (`backend/main.py`, lines 13-28) -/

/-- The `while start < len(text)` loop of `chunk_text` (lines 19-27): emit
`text[start : start + chunk_size]` and advance `start` by `stride`.  Peeling
`text[start:]` off each iteration, the loop body becomes: emit
`t.take chunk_size` and continue on `t.drop stride`.  `fuel` bounds the
number of remaining iterations; since `stride ≥ 1` on every call (validated
parameters), `fuel = |text|` always suffices. -/
def chunkLoop (chunk_size stride : Nat) : Nat → List Char → List (List Char)
  | _, [] => []
  | 0, _ :: _ => []
  | fuel + 1, c :: rest =>
      (c :: rest).take chunk_size :: chunkLoop chunk_size stride fuel ((c :: rest).drop stride)

/-- `chunk_text(text, chunk_size, overlap)` (`backend/main.py`, lines 13-28):
validates the parameters, then slides a `chunk_size`-wide window over the
text with stride `chunk_size - overlap`. -/
def chunk_text (text : String) (chunk_size overlap : Int) : Except String (List String) :=
  if chunk_size ≤ 0 then .error "chunk_size must be greater than 0"
  else if overlap < 0 ∨ overlap ≥ chunk_size then .error "overlap must be >= 0 and < chunk_size"
  else .ok ((chunkLoop chunk_size.toNat (chunk_size - overlap).toNat
      text.data.length text.data).map String.mk)

/-! ### Window characterization of the chunking loop -/

/-- Follows the spec's words (§4.1), for comparison with `chunk_text`:
"windows start at offsets 0, stride, 2*stride, … while the start offset is
less than the text length; each window is `text[start : start+chunk_size]`". -/
def specWindows (text : String) (chunk_size stride : Nat) : List String :=
  (List.range ((text.data.length + stride - 1) / stride)).map
    (fun i => String.mk ((text.data.drop (i * stride)).take chunk_size))

theorem ceil_div_step (len stride : Nat) (hs : 0 < stride) (hl : 0 < len) :
    (len + stride - 1) / stride = ((len - stride) + stride - 1) / stride + 1 := by
  rcases le_or_lt len stride with h | h
  · have h0 : len - stride = 0 := by omega
    rw [h0]
    have h1 : (0 + stride - 1) / stride = 0 := Nat.div_eq_of_lt (by omega)
    rw [h1]
    have h2 : len + stride - 1 = (len - 1) + stride := by omega
    rw [h2, Nat.add_div_right _ hs, Nat.div_eq_of_lt (by omega)]
  · have h2 : len + stride - 1 = ((len - stride) + stride - 1) + stride := by omega
    rw [h2, Nat.add_div_right _ hs]

theorem lt_ceil_div_iff (len stride i : Nat) (hs : 0 < stride) :
    i < (len + stride - 1) / stride ↔ i * stride < len := by
  rw [show (i < (len + stride - 1) / stride) = (i + 1 ≤ (len + stride - 1) / stride) from rfl,
    Nat.le_div_iff_mul_le hs]
  have h : (i + 1) * stride = i * stride + stride := by ring
  rw [h]
  omega

theorem chunkLoop_eq_windows (chunk_size stride : Nat) (hs : 0 < stride) :
    ∀ (fuel : Nat) (t : List Char), t.length ≤ fuel →
      chunkLoop chunk_size stride fuel t =
        (List.range ((t.length + stride - 1) / stride)).map
          (fun i => (t.drop (i * stride)).take chunk_size) := by
  intro fuel
  induction fuel with
  | zero =>
    intro t ht
    have h0 : t = [] := List.eq_nil_of_length_eq_zero (by omega)
    subst h0
    simp [chunkLoop, Nat.div_eq_of_lt (by omega : stride - 1 < stride)]
  | succ n ih =>
    intro t ht
    match t with
    | [] => simp [chunkLoop, Nat.div_eq_of_lt (by omega : stride - 1 < stride)]
    | c :: rest =>
      have hlen : (c :: rest).length = rest.length + 1 := rfl
      have hdrop : ((c :: rest).drop stride).length = rest.length + 1 - stride := by
        simp
      rw [chunkLoop, ih _ (by omega)]
      rw [hdrop, hlen, ceil_div_step (rest.length + 1) stride hs (by omega),
        List.range_succ_eq_map]
      simp only [List.map_cons, List.map_map, Nat.zero_mul, List.drop_zero]
      congr 1
      apply List.map_congr_left
      intro i _
      simp only [Function.comp_apply, List.drop_drop]
      have harith : stride + i * stride = i.succ * stride := by
        simp [Nat.succ_mul]
        ring
      rw [harith]

/-- C3: for every text and valid parameters, `chunk_text` returns exactly the
windows `text[start : start+chunk_size]` at start offsets `0, stride,
2*stride, …` with `stride = chunk_size - overlap`, for as long as the start
offset is below the text length; each window has length at most
`chunk_size`; and the concrete example `chunk_text("abcdefghij", 4, 1) =
["abcd", "defg", "ghij", "j"]` holds.  Being a pure function, the result
depends only on the arguments. -/
theorem chunk_text_returns_stride_windows (text : String) (chunk_size overlap : Int)
    (h1 : 0 < chunk_size) (h2 : 0 ≤ overlap) (h3 : overlap < chunk_size) :
    chunk_text text chunk_size overlap =
      .ok (specWindows text chunk_size.toNat (chunk_size - overlap).toNat) ∧
    (∀ i : Nat,
      i < (text.data.length + (chunk_size - overlap).toNat - 1) / (chunk_size - overlap).toNat ↔
        i * (chunk_size - overlap).toNat < text.data.length) ∧
    (∀ c ∈ specWindows text chunk_size.toNat (chunk_size - overlap).toNat,
      c.data.length ≤ chunk_size.toNat) ∧
    chunk_text "abcdefghij" 4 1 = .ok ["abcd", "defg", "ghij", "j"] := by
  have hs : 0 < (chunk_size - overlap).toNat := by omega
  refine ⟨?_, ?_, ?_, ?_⟩
  · rw [chunk_text, if_neg (by omega), if_neg (by omega)]
    rw [chunkLoop_eq_windows _ _ hs _ _ le_rfl]
    simp [specWindows]
  · intro i
    exact lt_ceil_div_iff _ _ _ hs
  · intro c hc
    simp only [specWindows, List.mem_map, List.mem_range] at hc
    obtain ⟨i, _, hi⟩ := hc
    subst hi
    simp
  · rw [chunk_text, if_neg (by omega), if_neg (by omega)]
    rfl

/-- C8: `chunk_text` fails with an invalid-parameter error exactly when
`chunk_size ≤ 0`, `overlap < 0` or `overlap ≥ chunk_size`; for all other
parameter values it returns normally. -/
theorem chunk_text_error_iff_invalid_params (text : String) (chunk_size overlap : Int) :
    (∃ e, chunk_text text chunk_size overlap = .error e) ↔
      chunk_size ≤ 0 ∨ overlap < 0 ∨ overlap ≥ chunk_size := by
  rw [chunk_text]
  split
  · simp_all
  · split
    · simp_all
    · simp_all

/-! ## Ingestion pipeline — `upload_pdf` (`backend/main.py`, lines 31-105)

The HTTP layer, the byte streaming to disk and the pdfplumber collaborator
are outside the data model; what we embed is the chunk-record construction
loop (lines 56-75): the per-page extraction results come in as a list of
`Option String` (`None` for a page with no extractable text, exactly as
`page.extract_text()` returns it). -/

/-- `CHUNK_SIZE` (main.py line 10). -/
def CHUNK_SIZE : Int := 1200

/-- `OVERLAP` (main.py line 11). -/
def OVERLAP : Int := 200

/-- The dict literal appended for each chunk of a page (main.py lines 68-73).
Its keys are exactly `doc_id`, `chunk_id`, `page_number`, `text`. -/
def chunkRecord (doc_id : String) (chunk_id page_number : Int) (text : String) : Dict :=
  [("doc_id", .str doc_id), ("chunk_id", .num chunk_id),
   ("page_number", .num page_number), ("text", .str text)]

/-- With the fixed ingestion parameters, `chunk_text` never fails and reduces
to the windowing loop with stride 1000. -/
theorem chunk_text_fixed_params (text : String) :
    chunk_text text CHUNK_SIZE OVERLAP =
      .ok ((chunkLoop CHUNK_SIZE.toNat (CHUNK_SIZE - OVERLAP).toNat
        text.data.length text.data).map String.mk) := rfl

/-- The body of the per-page loop of `upload_pdf` (main.py lines 62-75), on
the state `(chunk_id, page_number, chunks)`: extracted text of `None` is
replaced by the empty string; the page text is chunked with the fixed
parameters (the validated `chunk_text` call reduces to `chunkLoop`, see
`chunk_text_fixed_params`); each chunk is appended as a record carrying the
next sequential `chunk_id`; finally the page number advances by one. -/
def pageStep (doc_id : String) (st : Int × Int × List Dict) (extracted : Option String) :
    Int × Int × List Dict :=
  let text := extracted.getD ""
  let pieces := chunkLoop CHUNK_SIZE.toNat (CHUNK_SIZE - OVERLAP).toNat
    text.data.length text.data
  let fold := pieces.foldl (fun (acc : Int × List Dict) piece =>
      (acc.1 + 1, acc.2 ++ [chunkRecord doc_id acc.1 st.2.1 (String.mk piece)]))
    (st.1, st.2.2)
  (fold.1, st.2.1 + 1, fold.2)

/-- The chunk records `upload_pdf` persists to `chunks.json` (main.py lines
56-85), given the per-page extraction results: `chunk_id` starts at 0,
`page_number` at 1. -/
def upload_pdf_chunks (doc_id : String) (extractedPages : List (Option String)) : List Dict :=
  (extractedPages.foldl (pageStep doc_id) (0, 1, [])).2.2

/-- C2 (code evidence): the chunk records `upload_pdf` persists carry a
sequential `chunk_id` but no `chunk_uid` key at all — the dict literal of
main.py lines 68-73 has only `doc_id`, `chunk_id`, `page_number` and `text` —
although `indexing.py`, `retrieval.py` and `answering.py` all read
`chunk_uid` from these records.  Evaluated at a one-page upload. -/
theorem upload_pdf_chunks_lack_chunk_uid :
    upload_pdf_chunks "d1" [some "hello world"] = [chunkRecord "d1" 0 1 "hello world"] ∧
    ∀ r ∈ upload_pdf_chunks "d1" [some "hello world"],
      dictHasKey r "chunk_uid" = false ∧ dictHasKey r "chunk_id" = true := by
  constructor
  · rfl
  · intro r hr
    simp only [show upload_pdf_chunks "d1" [some "hello world"] =
      [chunkRecord "d1" 0 1 "hello world"] from rfl, List.mem_singleton] at hr
    subst hr
    constructor <;> rfl

/-- C10: `chunk_text` of the empty string returns zero chunks (not one empty
chunk) for every valid parameter pair; consequently in `upload_pdf` a page
with no extractable text (whether `extract_text()` returned `None` or an
empty string) contributes zero chunk records, leaves the `chunk_id` counter
untouched, and still advances the page number by one. -/
theorem chunk_text_empty_yields_no_chunks (chunk_size overlap : Int)
    (h1 : 0 < chunk_size) (h2 : 0 ≤ overlap) (h3 : overlap < chunk_size) :
    chunk_text "" chunk_size overlap = .ok [] ∧
    (∀ (doc_id : String) (st : Int × Int × List Dict),
      pageStep doc_id st none = (st.1, st.2.1 + 1, st.2.2) ∧
      pageStep doc_id st (some "") = (st.1, st.2.1 + 1, st.2.2)) := by
  constructor
  · rw [chunk_text, if_neg (by omega), if_neg (by omega)]
    rfl
  · intro doc_id st
    constructor <;> rfl

/-- Witness for C10 at the ingestion parameters (1200, 200). -/
theorem chunk_text_empty_yields_no_chunks_witness :
    chunk_text "" 1200 200 = .ok [] ∧
    pageStep "d1" (0, 1, []) none = (0, 2, []) := by
  have h := chunk_text_empty_yields_no_chunks 1200 200 (by omega) (by omega) (by omega)
  exact ⟨h.1, ((h.2 "d1" (0, 1, [])).1)⟩

/-- Witness for C3 at the spec's concrete example. -/
theorem chunk_text_returns_stride_windows_witness :
    chunk_text "abcdefghij" 4 1 = .ok ["abcd", "defg", "ghij", "j"] :=
  (chunk_text_returns_stride_windows "abcdefghij" 4 1
    (by omega) (by omega) (by omega)).2.2.2

/-! ## Embedding provider — `backend/rag/embeddings.py`

The sentence-transformer model is an external collaborator: its `encode`
function is a parameter.  Vectors are carried opaquely as lists (stand-ins
for float32 rows; no claim inspects vector values, and `_l2_normalize`
rescales rows without changing shapes). -/

/-- An embedding vector, opaque to the pipeline logic. -/
abbrev Vec := List Int

/-- `embed_texts(texts, normalize)` (embeddings.py lines 25-37): empty input
yields the explicitly empty `(0, 0)` matrix, never an error; otherwise the
model encodes the texts, one row per text.  The `normalize` branch applies
`_l2_normalize`, which rescales rows in place and changes no shape, so it is
the identity on the opaque rows. -/
def embed_texts (encode : List String → List Vec) (texts : List String)
    (normalize : Bool) : List Vec :=
  if texts.isEmpty then [] else
    let emb := encode texts
    if normalize then emb else emb

/-- numpy `.size` of a row matrix: the total element count. -/
def matSize (m : List Vec) : Nat := (m.map List.length).sum

/-- The validation part of `embed_query` (embeddings.py lines 40-44): strip
the query and fail on blank; the embedding itself is the collaborator's
value and is carried opaquely. -/
def embed_query_check (query : String) : Except String Unit :=
  if pyStrip query = "" then .error "Query is empty." else .ok ()

/-! ## Index builder — `backend/rag/indexing.py` -/

/-- `c.get("text") or ""` (indexing.py line 49): a missing or null `text`
becomes the empty string.  (Persisted chunk records always hold a string
here; a non-string would make the subsequent `.strip()` raise in Python and
is not representable in the persisted data.) -/
def chunkTextField (c : Dict) : String :=
  match dictGet c "text" with
  | some (.str s) => s
  | _ => ""

/-- The filter of `_select_texts_and_meta` (indexing.py lines 50-51): keep a
chunk iff its stripped text has at least `min_chars` characters. -/
def passesMinChars (min_chars : Nat) (c : Dict) : Bool :=
  min_chars ≤ (pyStrip (chunkTextField c)).data.length

/-- The metadata row built for a surviving chunk (indexing.py lines 55-61). -/
def metaOf (c : Dict) : Dict :=
  [("chunk_uid", (dictGet c "chunk_uid").getD .null),
   ("chunk_id", (dictGet c "chunk_id").getD .null),
   ("page_number", (dictGet c "page_number").getD .null)]

/-- `_select_texts_and_meta(chunks, min_chars)` (indexing.py lines 40-63):
one pass over the chunks appending, for each chunk that passes the filter,
its text to `texts` and its metadata row to `meta`. -/
def select_texts_and_meta (chunks : List Dict) (min_chars : Nat) :
    List String × List Dict :=
  chunks.foldl (fun acc c =>
    if passesMinChars min_chars c then (acc.1 ++ [chunkTextField c], acc.2 ++ [metaOf c])
    else acc) ([], [])

theorem select_texts_and_meta_eq_filter (chunks : List Dict) (min_chars : Nat) :
    select_texts_and_meta chunks min_chars =
      ((chunks.filter (passesMinChars min_chars)).map chunkTextField,
       (chunks.filter (passesMinChars min_chars)).map metaOf) := by
  suffices h : ∀ acc : List String × List Dict,
      chunks.foldl (fun acc c =>
        if passesMinChars min_chars c then (acc.1 ++ [chunkTextField c], acc.2 ++ [metaOf c])
        else acc) acc =
      (acc.1 ++ (chunks.filter (passesMinChars min_chars)).map chunkTextField,
       acc.2 ++ (chunks.filter (passesMinChars min_chars)).map metaOf) by
    rw [select_texts_and_meta, h ([], [])]
    simp
  induction chunks with
  | nil => intro acc; simp
  | cons c rest ih =>
    intro acc
    by_cases hc : passesMinChars min_chars c
    · simp only [List.foldl_cons, if_pos hc, ih, List.filter_cons_of_pos hc, List.map_cons]
      simp
    · simp only [List.foldl_cons, if_neg hc, ih,
        List.filter_cons_of_neg (by simpa using hc)]

/-- `IndexBuildStats` (indexing.py lines 18-23). -/
structure IndexBuildStats where
  doc_id : String
  total_chunks_loaded : Nat
  total_chunks_indexed : Nat
  embedding_dim : Nat
deriving DecidableEq

/-- `build_index_for_doc(doc_id, write_meta)` (indexing.py lines 66-104),
taking as input the chunk sequence loaded from `chunks.json` (the directory
and file existence checks of lines 68-72 are file-system preconditions
upstream of this logic) and the external `encode` collaborator.  Selects the
texts and metadata, embeds with normalization enabled, fails when the
embedding matrix is empty, builds a flat inner-product index over the rows
(`index.ntotal` = number of rows added) and returns the index rows, the
metadata sequence (when `write_meta`) and the build statistics.  The ragged
check stands in for the numpy `ndim != 2` check: `np.asarray` of equal-length
rows is 2-dimensional. -/
def build_index_for_doc (encode : List String → List Vec) (doc_id : String)
    (chunks : List Dict) (write_meta : Bool) :
    Except String (List Vec × Option (List Dict) × IndexBuildStats) :=
  let tm := select_texts_and_meta chunks 30
  let vectors := embed_texts encode tm.1 true
  if matSize vectors = 0 then
    .error "No valid chunks to index (all were empty/too short)."
  else if vectors.any (fun r => r.length ≠ vectors.headI.length) then
    .error "Expected embeddings 2D array"
  else
    .ok (vectors, if write_meta then some tm.2 else none,
      { doc_id := doc_id, total_chunks_loaded := chunks.length,
        total_chunks_indexed := vectors.length,
        embedding_dim := vectors.headI.length })

/-- C4: over a persisted chunk sequence of which exactly `M` chunks pass the
30-character filter, `build_index_for_doc` — with an embedding collaborator
that returns one fixed-dimension row per text, the §6 interface contract —
fails with the no-content error exactly when `M = 0`, and otherwise produces
an index holding exactly `M` vectors and a metadata sequence of length `M`
whose row `i` is the `chunk_uid`/`chunk_id`/`page_number` projection of the
chunk embedded at vector row `i` (same insertion order). -/
theorem build_index_counts_and_meta_alignment (encode : List String → List Vec)
    (d : Nat) (hd : 0 < d)
    (hlen : ∀ ts, (encode ts).length = ts.length)
    (hdim : ∀ ts r, r ∈ encode ts → r.length = d)
    (doc_id : String) (chunks : List Dict) :
    ((chunks.filter (passesMinChars 30)).length = 0 →
      build_index_for_doc encode doc_id chunks true =
        .error "No valid chunks to index (all were empty/too short).") ∧
    (0 < (chunks.filter (passesMinChars 30)).length →
      build_index_for_doc encode doc_id chunks true =
        .ok (encode ((chunks.filter (passesMinChars 30)).map chunkTextField),
          some ((chunks.filter (passesMinChars 30)).map metaOf),
          { doc_id := doc_id, total_chunks_loaded := chunks.length,
            total_chunks_indexed := (chunks.filter (passesMinChars 30)).length,
            embedding_dim := d }) ∧
      (encode ((chunks.filter (passesMinChars 30)).map chunkTextField)).length =
        (chunks.filter (passesMinChars 30)).length ∧
      ((chunks.filter (passesMinChars 30)).map metaOf).length =
        (chunks.filter (passesMinChars 30)).length ∧
      ∀ i (hi : i < (chunks.filter (passesMinChars 30)).length),
        ((chunks.filter (passesMinChars 30)).map metaOf).get ⟨i, by simpa using hi⟩ =
          metaOf ((chunks.filter (passesMinChars 30)).get ⟨i, hi⟩)) := by
  constructor
  · intro hM
    have hnil : chunks.filter (passesMinChars 30) = [] :=
      List.eq_nil_of_length_eq_zero hM
    rw [build_index_for_doc, select_texts_and_meta_eq_filter, hnil]
    simp [embed_texts, matSize]
  · intro hM
    have htexts : ((chunks.filter (passesMinChars 30)).map chunkTextField).isEmpty = false := by
      rcases hf : chunks.filter (passesMinChars 30) with _ | ⟨c, cs⟩
      · rw [hf] at hM
        simp at hM
      · rfl
    have hveclen : (encode ((chunks.filter (passesMinChars 30)).map chunkTextField)).length =
        (chunks.filter (passesMinChars 30)).length := by
      rw [hlen]
      simp
    obtain ⟨v, vs, hv⟩ : ∃ v vs,
        encode ((chunks.filter (passesMinChars 30)).map chunkTextField) = v :: vs := by
      rcases he : encode ((chunks.filter (passesMinChars 30)).map chunkTextField) with _ | ⟨v, vs⟩
      · rw [he] at hveclen
        simp at hveclen
        omega
      · exact ⟨v, vs, rfl⟩
    have hvmem : v ∈ encode ((chunks.filter (passesMinChars 30)).map chunkTextField) := by
      rw [hv]
      exact List.mem_cons_self _ _
    have hvd : v.length = d := hdim _ _ hvmem
    have hsize : matSize (encode ((chunks.filter (passesMinChars 30)).map chunkTextField)) ≠ 0 := by
      rw [hv, matSize]
      simp only [List.map_cons, List.sum_cons]
      omega
    have hragged : (encode ((chunks.filter (passesMinChars 30)).map chunkTextField)).any
        (fun r => r.length ≠ (encode ((chunks.filter (passesMinChars 30)).map chunkTextField)).headI.length) = false := by
      rw [List.any_eq_false]
      intro r hr
      have h1 : r.length = d := hdim _ _ hr
      have h2 : (encode ((chunks.filter (passesMinChars 30)).map chunkTextField)).headI.length = d := by
        rw [hv]
        simpa using hvd
      simp [h1, h2]
    refine ⟨?_, hveclen, by simp, ?_⟩
    · rw [build_index_for_doc, select_texts_and_meta_eq_filter]
      simp only [embed_texts, htexts, Bool.false_eq_true, if_false, if_true]
      rw [if_neg hsize]
      rw [if_neg (by rw [hragged]; simp)]
      have hdimeq : (encode ((chunks.filter (passesMinChars 30)).map chunkTextField)).headI.length = d := by
        rw [hv]
        simpa using hvd
      rw [hveclen, hdimeq]
    · intro i hi
      rw [List.get_map]

/-- Witness for C4: two chunk records, one passing the 30-character filter,
with a one-dimensional stand-in embedding collaborator. -/
theorem build_index_counts_and_meta_alignment_witness :
    build_index_for_doc (fun ts => ts.map (fun _ => ([0] : Vec))) "d1"
      [chunkRecord "d1" 0 1 "This chunk has more than thirty characters.",
       chunkRecord "d1" 1 1 "too short"] true =
      .ok ([[0]],
        some [metaOf (chunkRecord "d1" 0 1 "This chunk has more than thirty characters.")],
        { doc_id := "d1", total_chunks_loaded := 2, total_chunks_indexed := 1,
          embedding_dim := 1 }) := by
  have h := (build_index_counts_and_meta_alignment (fun ts => ts.map (fun _ => ([0] : Vec))) 1
    (by omega) (by intro ts; simp)
    (by
      intro ts r hr
      obtain ⟨a, _, ha⟩ := List.mem_map.1 hr
      rw [← ha]
      rfl)
    "d1"
    [chunkRecord "d1" 0 1 "This chunk has more than thirty characters.",
     chunkRecord "d1" 1 1 "too short"]).2 (by decide)
  rw [h.1]
  exact congrArg Except.ok (by decide)

/-! ### Persistence of the index artifacts (indexing.py lines 89-97) -/

/-- A file-system operation performed while persisting build artifacts. -/
inductive FsOp where
  | write (path : String)
  | rename (src dst : String)
deriving DecidableEq

/-- Whether an operation is an atomic rename/replace step. -/
def isRenameOp : FsOp → Bool
  | .rename _ _ => true
  | .write _ => false

/-- The file-system operations `build_index_for_doc` performs when persisting
the index and its metadata (indexing.py lines 89-97): `faiss.write_index`
writes `index.faiss` at its final path, then (when `write_meta`) `json.dump`
over `open(meta_path, "w")` writes `meta.json` at its final path.  No
temporary file and no rename/replace step appears in the source. -/
def build_index_persist_trace (doc_id : String) (write_meta : Bool) : List FsOp :=
  [.write ("data/index/" ++ doc_id ++ "/index.faiss")] ++
    (if write_meta then [.write ("data/index/" ++ doc_id ++ "/meta.json")] else [])

/-- C6 (counterexample): at a concrete build, the persistence trace consists
of two direct in-place writes and contains no write-to-temporary-then-replace
step, contradicting the claim that the artifacts are persisted atomically via
a temporary file and a replace. -/
theorem build_index_persist_trace_no_replace :
    build_index_persist_trace "d1" true =
      [.write "data/index/d1/index.faiss", .write "data/index/d1/meta.json"] ∧
    (build_index_persist_trace "d1" true).all (fun op => !isRenameOp op) = true := by
  constructor
  · rfl
  · rfl

/-- C6 (amended): `build_index_for_doc` persists the index artifact and its
metadata sequence in the same build operation, but by writing each file
directly at its final path — there is no temporary file and no atomic
replace, so a concurrent reader is not protected against observing a
half-written index or a meta file misaligned with the index. -/
theorem build_index_writes_in_place (doc_id : String) (write_meta : Bool) :
    build_index_persist_trace doc_id write_meta =
      [.write ("data/index/" ++ doc_id ++ "/index.faiss")] ++
        (if write_meta then [.write ("data/index/" ++ doc_id ++ "/meta.json")] else []) ∧
    ∀ op ∈ build_index_persist_trace doc_id write_meta, isRenameOp op = false := by
  constructor
  · rfl
  · intro op hop
    rcases write_meta with _ | _ <;>
      simp only [build_index_persist_trace] at hop <;>
      simp at hop
    · rw [hop]
      rfl
    · rcases hop with h | h <;> rw [h] <;> rfl

/-! ## Retriever — `backend/rag/retrieval.py` -/

/-- `_build_chunk_lookup(chunks)` (retrieval.py lines 48-54): a dictionary
from `str(chunk_uid)` to the chunk record, for chunks whose `chunk_uid` is
truthy; a later binding overwrites an earlier one (Python dict assignment). -/
def build_chunk_lookup (chunks : List Dict) : List (String × Dict) :=
  chunks.foldl (fun lookup c =>
    let uid := (dictGet c "chunk_uid").getD .null
    if pyTruthy uid then lookup.filter (fun p => p.1 ≠ pyStrOf uid) ++ [(pyStrOf uid, c)]
    else lookup) []

/-- `lookup.get(key)` on the table built above. -/
def lookupGet (lookup : List (String × Dict)) (key : String) : Option Dict :=
  match lookup with
  | [] => none
  | (k, v) :: rest => if k = key then some v else lookupGet rest key

/-- The degraded diagnostic result (retrieval.py line 98). -/
def diagnosticResult (score row : Int) : Dict :=
  [("score", .num score), ("row", .num row), ("error", .str "Missing chunk mapping")]

/-- The full search result (retrieval.py lines 101-109). -/
def fullResult (score : Int) (c : Dict) : Dict :=
  [("score", .num score),
   ("chunk_uid", (dictGet c "chunk_uid").getD .null),
   ("chunk_id", (dictGet c "chunk_id").getD .null),
   ("page_number", (dictGet c "page_number").getD .null),
   ("text", (dictGet c "text").getD .null)]

/-- Python list indexing `meta[row]` (retrieval.py line 87): a negative index
counts from the end; an out-of-range index raises `IndexError`. -/
def pyListIndex (l : List Dict) (i : Int) : Except String Dict :=
  let j := if i < 0 then i + l.length else i
  if h : 0 ≤ j ∧ j.toNat < l.length then .ok (l.get ⟨j.toNat, h.2⟩)
  else .error "list index out of range"

/-- The result-mapping loop of `search_doc` (retrieval.py lines 77-109): for
each `(score, row)` pair FAISS returned, skip sentinel `-1` rows; with
metadata present, resolve `meta[row]` (Python indexing — an out-of-range row
raises `IndexError`, which propagates), read its `chunk_uid` and, when it is
not `None`, look the chunk up by `str(uid)`; without metadata, fall back to
positional indexing into the chunk sequence guarded by an explicit bounds
check.  A mapping that yields no chunk degrades to the diagnostic record. -/
def searchRows (meta : Option (List Dict)) (chunks : List Dict)
    (lookup : List (String × Dict)) : List (Int × Int) → Except String (List Dict)
  | [] => .ok []
  | (score, row) :: rest =>
    if row = -1 then searchRows meta chunks lookup rest
    else
      let mappedE : Except String (Option Dict) :=
        match meta with
        | some m =>
          match pyListIndex m row with
          | .error e => .error e
          | .ok mrow =>
            let uid := (dictGet mrow "chunk_uid").getD .null
            .ok (if uid ≠ .null then lookupGet lookup (pyStrOf uid) else none)
        | none =>
          .ok (if h : 0 ≤ row ∧ row.toNat < chunks.length
            then some (chunks.get ⟨row.toNat, h.2⟩) else none)
      match mappedE with
      | .error e => .error e
      | .ok chunk_obj =>
        match searchRows meta chunks lookup rest with
        | .error e => .error e
        | .ok others =>
          .ok ((match chunk_obj with
            | none => diagnosticResult score row
            | some c => fullResult score c) :: others)

/-- The response dict of `search_doc` (retrieval.py line 111). -/
structure SearchResponse where
  doc_id : String
  query : String
  k : Int
  results : List Dict
deriving DecidableEq

/-- `search_doc(doc_id, query, k)` (retrieval.py lines 57-111).  The loaded
index (only its vector count matters to this logic), the chunk sequence and
the optional metadata arrive as the results of their loaders (`_load_index`,
`_load_chunks`, `_load_meta_if_exists` — file I/O that may fail with
not-found errors), bound in source order after the `k` validation; the query
embedding enforces the blank-query check; the FAISS `index.search` call is
the external engine, a parameter producing the `(scores, ids)` row lists for
the given `k`. -/
def search_doc (doc_id query : String) (k : Int)
    (loadIndex : Except String Nat)
    (loadChunks : Except String (List Dict))
    (loadMeta : Except String (Option (List Dict)))
    (faissSearch : Int → List Int × List Int) :
    Except String SearchResponse :=
  if k ≤ 0 then .error "k must be > 0"
  else
    match loadIndex with
    | .error e => .error e
    | .ok _ntotal =>
      match loadChunks with
      | .error e => .error e
      | .ok chunks =>
        match loadMeta with
        | .error e => .error e
        | .ok meta =>
          match embed_query_check query with
          | .error e => .error e
          | .ok _ =>
            let scores := (faissSearch k).1
            let ids := (faissSearch k).2
            let lookup := build_chunk_lookup chunks
            match searchRows meta chunks lookup (scores.zip ids) with
            | .error e => .error e
            | .ok results =>
              .ok { doc_id := doc_id, query := query, k := k, results := results }

/-! ### Mapping-stage characterization -/

/-- Derived per-row mapping outcome (used to state C5-as-amended and C7):
for a non-sentinel row whose metadata row exists, the result is either the
full record or the diagnostic record. -/
def rowResult (meta : Option (List Dict)) (chunks : List Dict)
    (lookup : List (String × Dict)) (p : Int × Int) : Dict :=
  let mapped : Option Dict :=
    match meta with
    | some m =>
      match m.get? p.2.toNat with
      | some mrow =>
        let uid := (dictGet mrow "chunk_uid").getD .null
        if uid ≠ .null then lookupGet lookup (pyStrOf uid) else none
      | none => none
    | none =>
      if h : 0 ≤ p.2 ∧ p.2.toNat < chunks.length then some (chunks.get ⟨p.2.toNat, h.2⟩)
      else none
  match mapped with
  | none => diagnosticResult p.1 p.2
  | some c => fullResult p.1 c

theorem searchRows_eq_map (meta : Option (List Dict)) (chunks : List Dict)
    (lookup : List (String × Dict)) :
    ∀ pairs : List (Int × Int),
      (∀ p ∈ pairs, p.2 ≠ -1 → ∀ m, meta = some m → 0 ≤ p.2 ∧ p.2.toNat < m.length) →
      searchRows meta chunks lookup pairs =
        .ok ((pairs.filter (fun p => p.2 != -1)).map (rowResult meta chunks lookup)) := by
  intro pairs
  induction pairs with
  | nil => intro _; rfl
  | cons p rest ih =>
    intro hb
    obtain ⟨score, row⟩ := p
    have hrest : ∀ q ∈ rest, q.2 ≠ -1 → ∀ m, meta = some m → 0 ≤ q.2 ∧ q.2.toNat < m.length :=
      fun q hq => hb q (List.mem_cons_of_mem _ hq)
    by_cases hrow : row = -1
    · subst hrow
      rw [show searchRows meta chunks lookup ((score, -1) :: rest) =
          searchRows meta chunks lookup rest by simp only [searchRows, if_true]]
      rw [List.filter_cons_of_neg (by simp)]
      exact ih hrest
    · rcases meta with _ | m
      · simp only [searchRows]
        rw [if_neg hrow, ih hrest]
        rw [List.filter_cons_of_pos (by simpa using hrow), List.map_cons]
        rcases hpos : (if h : 0 ≤ row ∧ row.toNat < chunks.length
            then some (chunks.get ⟨row.toNat, h.2⟩) else none) with _ | c <;>
          simp only [rowResult, hpos]
      · have hbnd := hb (score, row) (List.mem_cons_self _ _) hrow m rfl
        have hget : m.get? row.toNat = some (m.get ⟨row.toNat, hbnd.2⟩) :=
          List.get?_eq_get hbnd.2
        have hidx : pyListIndex m row = .ok (m.get ⟨row.toNat, hbnd.2⟩) := by
          rw [pyListIndex]
          simp only [if_neg (by omega : ¬ row < 0)]
          rw [dif_pos ⟨hbnd.1, hbnd.2⟩]
        simp only [searchRows]
        rw [if_neg hrow, hidx, ih hrest]
        rw [List.filter_cons_of_pos (by simpa using hrow), List.map_cons]
        rcases hlk : (if ((dictGet (m.get ⟨row.toNat, hbnd.2⟩) "chunk_uid").getD .null) ≠ .null
            then lookupGet lookup (pyStrOf ((dictGet (m.get ⟨row.toNat, hbnd.2⟩) "chunk_uid").getD .null))
            else none) with _ | c <;>
          simp only [rowResult, hget, hlk]

/-- C5 (counterexample): a concrete `search_doc` run in which mapping a
returned index row back to a chunk fails — the metadata sequence on disk is
shorter than the returned row index — and the whole search ends in an
uncaught `IndexError` from `meta[row]` instead of the diagnostic
`{score, row, error}` record. -/
theorem search_doc_uncaught_failure_on_short_meta :
    search_doc "d1" "q" 1 (.ok 1) (.ok []) (.ok (some []))
      (fun _ => ([7], [0])) = .error "list index out of range" := rfl

/-- C5 (amended): in `search_doc`, whenever mapping a returned row back to a
chunk fails because the metadata row's `chunk_uid` is null or absent from the
chunk-sequence-derived lookup (or, without metadata, the row falls outside
the chunk sequence), that single result degrades to the diagnostic
`{score, row, error}` record and all remaining results are still produced;
this isolation holds for every row whose metadata row exists, i.e. whose
index is within the metadata sequence — an out-of-range row instead raises
an uncaught `IndexError` (see the counterexample). -/
theorem search_doc_mapping_failures_degrade (doc_id query : String) (k : Int)
    (ntotal : Nat) (chunks : List Dict) (meta : Option (List Dict))
    (faissSearch : Int → List Int × List Int)
    (hk : 0 < k) (hq : pyStrip query ≠ "")
    (hbound : ∀ p ∈ ((faissSearch k).1.zip (faissSearch k).2), p.2 ≠ -1 →
      ∀ m, meta = some m → 0 ≤ p.2 ∧ p.2.toNat < m.length) :
    (search_doc doc_id query k (.ok ntotal) (.ok chunks) (.ok meta) faissSearch =
      .ok (SearchResponse.mk doc_id query k
        ((((faissSearch k).1.zip (faissSearch k).2).filter
            (fun p => p.2 != -1)).map
          (rowResult meta chunks (build_chunk_lookup chunks))))) ∧
    (∀ (s r : Int) (m : List Dict), meta = some m → ∀ (hr : r.toNat < m.length),
      ((dictGet (m.get ⟨r.toNat, hr⟩) "chunk_uid").getD .null = .null ∨
        lookupGet (build_chunk_lookup chunks)
          (pyStrOf ((dictGet (m.get ⟨r.toNat, hr⟩) "chunk_uid").getD .null)) = none) →
      rowResult meta chunks (build_chunk_lookup chunks) (s, r) = diagnosticResult s r) ∧
    (∀ (s r : Int), meta = none → ¬ (0 ≤ r ∧ r.toNat < chunks.length) →
      rowResult meta chunks (build_chunk_lookup chunks) (s, r) = diagnosticResult s r) := by
  refine ⟨?_, ?_, ?_⟩
  · have hq2 : embed_query_check query = .ok () := by
      rw [embed_query_check, if_neg hq]
    have hrows := searchRows_eq_map meta chunks (build_chunk_lookup chunks) _ hbound
    simp only [search_doc, if_neg (by omega : ¬ k ≤ 0), hq2, hrows]
  · intro s r m hm hr hfail
    subst hm
    have hget : m.get? r.toNat = some (m.get ⟨r.toNat, hr⟩) := List.get?_eq_get hr
    by_cases hnull : ((dictGet (m.get ⟨r.toNat, hr⟩) "chunk_uid").getD .null) = .null
    · simp only [rowResult, hget, hnull, ne_eq, not_true_eq_false, if_false]
    · rcases hfail with h | h
      · exact absurd h hnull
      · simp only [rowResult, hget, ne_eq, hnull, not_false_eq_true, if_true, h]
  · intro s r hm hout
    subst hm
    simp only [rowResult, dif_neg hout]

/-- Witness for C5-as-amended: a concrete search in which the metadata row
exists but its `chunk_uid` is null (the persisted records carry none), so the
single result degrades to the diagnostic record and the search succeeds. -/
theorem search_doc_mapping_failures_degrade_witness :
    search_doc "d1" "q" 1 (.ok 1) (.ok [chunkRecord "d1" 0 1 "hello"])
      (.ok (some [metaOf (chunkRecord "d1" 0 1 "hello")])) (fun _ => ([9], [0])) =
      .ok (SearchResponse.mk "d1" "q" 1 [diagnosticResult 9 0]) := by
  have h := (search_doc_mapping_failures_degrade "d1" "q" 1 1
    [chunkRecord "d1" 0 1 "hello"] (some [metaOf (chunkRecord "d1" 0 1 "hello")])
    (fun _ => ([9], [0])) (by omega) (by decide)
    (by
      intro p hp hne m hm
      cases hm
      have hp2 : p ∈ [((9 : Int), (0 : Int))] := hp
      rw [List.mem_singleton] at hp2
      subst hp2
      decide)).1
  rw [h]
  exact congrArg Except.ok (by decide)

/-- C7: `search_doc` validates `k` before any I/O — for `k ≤ 0` it fails with
the validation error no matter what the loaders hold, including when they
would fail — and for `k > 0` it succeeds even when `k` exceeds the number of
indexed vectors, returning at most `min(k, ntotal)` results, because FAISS
sentinel no-match rows (`-1`) are dropped rather than treated as errors.  The
hypotheses on `faissSearch` are the flat-index engine contract (§6): `k`
result columns per query, each row id either the `-1` sentinel or a valid row
index, valid ids pairwise distinct; present metadata is row-aligned to the
index (the build invariant). -/
theorem search_doc_k_validation_and_result_bound (doc_id query : String) (k : Int)
    (loadIndex : Except String Nat) (loadChunks : Except String (List Dict))
    (loadMeta : Except String (Option (List Dict)))
    (faissSearch : Int → List Int × List Int) :
    (k ≤ 0 → search_doc doc_id query k loadIndex loadChunks loadMeta faissSearch =
      .error "k must be > 0") ∧
    (∀ (ntotal : Nat) (chunks : List Dict) (meta : Option (List Dict)),
      0 < k → loadIndex = .ok ntotal → loadChunks = .ok chunks → loadMeta = .ok meta →
      pyStrip query ≠ "" →
      (faissSearch k).1.length = (faissSearch k).2.length →
      (faissSearch k).2.length = k.toNat →
      (∀ r ∈ (faissSearch k).2, r = -1 ∨ (0 ≤ r ∧ r.toNat < ntotal)) →
      ((faissSearch k).2.filter (fun r => r != -1)).Nodup →
      (∀ m, meta = some m → m.length = ntotal) →
      ∃ results,
        search_doc doc_id query k loadIndex loadChunks loadMeta faissSearch =
          .ok (SearchResponse.mk doc_id query k results) ∧
        results.length ≤ k.toNat ∧ results.length ≤ ntotal) := by
  constructor
  · intro hk
    simp only [search_doc]
    rw [if_pos hk]
  · intro ntotal chunks meta hk hLI hLC hLM hq hlen12 hklen hids hnodup hmeta
    subst hLI
    subst hLC
    subst hLM
    have hbound : ∀ p ∈ ((faissSearch k).1.zip (faissSearch k).2), p.2 ≠ -1 →
        ∀ m, meta = some m → 0 ≤ p.2 ∧ p.2.toNat < m.length := by
      intro p hp hne m hm
      have hsnd : p.2 ∈ (faissSearch k).2 := (List.of_mem_zip hp).2
      rcases hids p.2 hsnd with h | h
      · exact absurd h hne
      · rw [hmeta m hm]
        exact h
    have hq2 : embed_query_check query = .ok () := by
      rw [embed_query_check, if_neg hq]
    have hrows := searchRows_eq_map meta chunks (build_chunk_lookup chunks) _ hbound
    have hsndzip : (((faissSearch k).1).zip ((faissSearch k).2)).map Prod.snd =
        (faissSearch k).2 :=
      List.map_snd_zip _ _ (le_of_eq hlen12.symm)
    have hflen : ((((faissSearch k).1).zip ((faissSearch k).2)).filter
        (fun p => p.2 != -1)).length =
        ((faissSearch k).2.filter (fun r => r != -1)).length := by
      rw [← List.countP_eq_length_filter, ← List.countP_eq_length_filter]
      rw [show List.countP (fun r => r != -1) (faissSearch k).2 =
          List.countP (fun r => r != -1)
            ((((faissSearch k).1).zip ((faissSearch k).2)).map Prod.snd) by
        rw [hsndzip]]
      rw [List.countP_map]
      rfl
    have hsub : ((faissSearch k).2.filter (fun r => r != -1)).toFinset ⊆
        Finset.Ico (0 : Int) ntotal := by
      intro x hx
      rw [List.mem_toFinset, List.mem_filter] at hx
      rcases hids x hx.1 with h | h
      · subst h
        simp at hx
      · rw [Finset.mem_Ico]
        refine ⟨h.1, ?_⟩
        omega
    have hcard : ((faissSearch k).2.filter (fun r => r != -1)).length ≤ ntotal := by
      have h1 := List.toFinset_card_of_nodup hnodup
      have h2 := Finset.card_le_card hsub
      rw [h1, Int.card_Ico] at h2
      simpa using h2
    refine ⟨(((faissSearch k).1.zip (faissSearch k).2).filter (fun p => p.2 != -1)).map
      (rowResult meta chunks (build_chunk_lookup chunks)), ?_, ?_, ?_⟩
    · simp only [search_doc, if_neg (by omega : ¬ k ≤ 0), hq2, hrows]
    · rw [List.length_map, hflen]
      calc ((faissSearch k).2.filter (fun r => r != -1)).length
          ≤ (faissSearch k).2.length := List.length_filter_le _ _
        _ = k.toNat := hklen
    · rw [List.length_map, hflen]
      exact hcard

/-- Witness for C7: a one-vector index queried with `k = 3` returns a single
result (the two sentinel rows are dropped), and `k = 0` is rejected before
the failing loaders are ever consulted. -/
theorem search_doc_k_validation_and_result_bound_witness :
    (search_doc "d1" "q" 0 (.error "index.faiss not found for doc_id=d1. Build the index first.")
      (.error "chunks.json not found for doc_id=d1") (.error "meta.json must contain a JSON list.")
      (fun _ => ([], [])) = .error "k must be > 0") ∧
    (∃ results,
      search_doc "d1" "q" 3 (.ok 1) (.ok [chunkRecord "d1" 0 1 "hello"])
        (.ok (some [metaOf (chunkRecord "d1" 0 1 "hello")]))
        (fun _ => ([9, 0, 0], [0, -1, -1])) =
        .ok (SearchResponse.mk "d1" "q" 3 results) ∧
      results.length ≤ 3 ∧ results.length ≤ 1) := by
  constructor
  · exact (search_doc_k_validation_and_result_bound "d1" "q" 0
      (.error "index.faiss not found for doc_id=d1. Build the index first.")
      (.error "chunks.json not found for doc_id=d1") (.error "meta.json must contain a JSON list.")
      (fun _ => ([], []))).1 (by omega)
  · exact (search_doc_k_validation_and_result_bound "d1" "q" 3 (.ok 1)
      (.ok [chunkRecord "d1" 0 1 "hello"])
      (.ok (some [metaOf (chunkRecord "d1" 0 1 "hello")]))
      (fun _ => ([9, 0, 0], [0, -1, -1]))).2 1 [chunkRecord "d1" 0 1 "hello"]
      (some [metaOf (chunkRecord "d1" 0 1 "hello")]) (by omega) rfl rfl rfl
      (by decide) (by decide) (by decide) (by decide) (by decide)
      (by
        intro m hm
        cases hm
        rfl)

/-! ## Answer composer / citation guard — `backend/rag/answering.py`

The generative model (`client.models.generate_content`), the response-text
extraction `_get_text` and the JSON recovery `_extract_json` (lines 31-74,
127-133) are the external generative collaborator plus string surgery on its
raw output; they enter the embedding as a single parameter mapping the prompt
to either a parse error or the parsed JSON object.  Everything from the
parsed object on — the shape checks and the citation guardrail (lines
136-151) — is embedded literally. -/

/-- The fixed fallback answer sentence (answering.py line 98). -/
def FALLBACK_ANSWER : String := "I don't know based on the provided sources."

/-- `_build_sources(results)` (answering.py lines 20-28): one line per
retrieved chunk — the bracketed chunk identifier, the page number, and the
text stripped and with internal line breaks collapsed to spaces. -/
def build_sources (results : List Dict) : String :=
  String.intercalate "\n" (results.map (fun r =>
    "[" ++ pyStrOf ((dictGet r "chunk_uid").getD .null) ++ "] (page " ++
      pyStrOf ((dictGet r "page_number").getD .null) ++ ") " ++
      (pyStrip (chunkTextField r)).replace "\n" " "))

/-- The grounding prompt (answering.py lines 102-125). -/
def answer_prompt (question : String) (results : List Dict) : String :=
  "You are answering a question using ONLY the provided sources.\n\n" ++
  "Rules:\n" ++
  "- Use ONLY the sources below. Do not use outside knowledge.\n" ++
  "- If the answer is not contained in the sources, return exactly:\n" ++
  "  \"I don't know based on the provided sources.\"\n" ++
  "- Cite sources using chunk IDs like [docid_00012] where the ID matches the bracketed IDs in Sources.\n" ++
  "- Return ONLY JSON. No markdown. No backticks. No extra text.\n\n" ++
  "JSON format:\n" ++
  "\x7b\n  \"answer\": \"string\",\n  \"citations\": [\n    \x7b\"chunk_id\": \"string\", \"page\": 1, \"snippet\": \"string\"\x7d\n  ]\n\x7d\n\n" ++
  "Question:\n" ++ question ++ "\n\n" ++
  "Sources:\n" ++ build_sources results

/-- `allowed` (answering.py line 100): the `chunk_uid` values present in the
retrieved-results list (a Python set; only membership is ever used). -/
def allowed_uids (results : List Dict) : List JValue :=
  (results.filter (fun r => dictHasKey r "chunk_uid")).map
    (fun r => (dictGet r "chunk_uid").getD .null)

/-- The citation-validation loop (answering.py lines 143-149): each citation
must be an object, contain `chunk_id`, `page` and `snippet`, and its
`chunk_id` must be a member of the allowed set. -/
def checkCitations (allowed : List JValue) : List JValue → Except String Unit
  | [] => .ok ()
  | c :: rest =>
    match c with
    | .obj fields =>
      if ¬ (dictHasKey fields.toList "chunk_id" ∧ dictHasKey fields.toList "page" ∧
          dictHasKey fields.toList "snippet") then
        .error "Each citation must contain chunk_id, page, snippet"
      else if ¬ pyIn ((dictGet fields.toList "chunk_id").getD .null) allowed then
        .error ("Invalid citation chunk_id: " ++
          pyStrOf ((dictGet fields.toList "chunk_id").getD .null))
      else checkCitations allowed rest
    | _ => .error "Each citation must be an object"

/-- `answer_with_citations(question, results)` (answering.py lines 77-151):
validates the question; short-circuits on an empty results list to the fixed
fallback; otherwise computes the allowed set, calls the generative
collaborator on the grounding prompt, checks the parsed object's shape, runs
the citation guardrail, and returns the parsed object unchanged. -/
def answer_with_citations (question : String) (results : List Dict)
    (genParsed : String → Except String Dict) : Except String Dict :=
  if pyStrip question = "" then .error "Question cannot be empty."
  else if results = [] then
    .ok [("answer", .str FALLBACK_ANSWER), ("citations", .arr .nil)]
  else
    match genParsed (answer_prompt question results) with
    | .error e => .error e
    | .ok data =>
      if ¬ (dictHasKey data "answer" ∧ dictHasKey data "citations") then
        .error "Gemini JSON missing keys."
      else
        match dictGet data "citations" with
        | some (.arr cits) =>
          match checkCitations (allowed_uids results) cits.toList with
          | .error e => .error e
          | .ok _ => .ok data
        | _ => .error "citations must be a list"

/-- A citation passes the guardrail (derived predicate used to state C1). -/
def citationOk (allowed : List JValue) : JValue → Bool
  | .obj fields =>
    dictHasKey fields.toList "chunk_id" && dictHasKey fields.toList "page" &&
      dictHasKey fields.toList "snippet" &&
      pyIn ((dictGet fields.toList "chunk_id").getD .null) allowed
  | _ => false

/-- The citations of a parsed generation output (empty when the field is
missing or not a list). -/
def citationList (data : Dict) : List JValue :=
  match dictGet data "citations" with
  | some (.arr l) => l.toList
  | _ => []

theorem checkCitations_ok_iff (allowed : List JValue) (cits : List JValue) :
    checkCitations allowed cits = .ok () ↔ ∀ c ∈ cits, citationOk allowed c = true := by
  induction cits with
  | nil => simp [checkCitations]
  | cons c rest ih =>
    match c with
    | .null | .bool _ | .num _ | .str _ | .arr _ =>
      simp [checkCitations, citationOk]
    | .obj fields =>
      by_cases h1 : dictHasKey fields.toList "chunk_id" ∧ dictHasKey fields.toList "page" ∧
          dictHasKey fields.toList "snippet"
      · by_cases h2 : pyIn ((dictGet fields.toList "chunk_id").getD .null) allowed = true
        · rw [checkCitations, if_neg (not_not_intro h1), if_neg (by simpa using h2)]
          simp only [List.mem_cons, ih]
          constructor
          · intro hrest d hd
            rcases hd with hd | hd
            · subst hd
              simp [citationOk, h1.1, h1.2.1, h1.2.2, h2]
            · exact hrest d hd
          · intro hall d hd
            exact hall d (Or.inr hd)
        · rw [checkCitations, if_neg (not_not_intro h1), if_pos (by simpa using h2)]
          constructor
          · intro h
            exact absurd h (by simp)
          · intro hall
            have := hall (.obj fields) (List.mem_cons_self _ _)
            rw [citationOk] at this
            simp only [Bool.and_eq_true] at this
            exact absurd this.2 (by simpa using h2)
      · rw [checkCitations, if_pos h1]
        constructor
        · intro h
          exact absurd h (by simp)
        · intro hall
          have := hall (.obj fields) (List.mem_cons_self _ _)
          rw [citationOk] at this
          simp only [Bool.and_eq_true] at this
          exact absurd ⟨this.1.1.1, this.1.1.2, this.1.2⟩ h1

/-- C9: for every non-blank question, `answer_with_citations` with an empty
retrieved-results list returns the fixed fallback sentence with an empty
citations list.  The generative collaborator is universally quantified and
the result does not depend on it: the short-circuit precedes the generation
call, so no generative-model call is performed at all. -/
theorem answer_empty_results_short_circuit (question : String)
    (genParsed : String → Except String Dict)
    (hq : pyStrip question ≠ "") :
    answer_with_citations question [] genParsed =
      .ok [("answer", .str FALLBACK_ANSWER), ("citations", .arr .nil)] := by
  simp only [answer_with_citations, if_neg hq, if_true]

/-- Witness for C9, with a collaborator that would fail if it were called. -/
theorem answer_empty_results_short_circuit_witness :
    answer_with_citations "What is the revenue?" [] (fun _ => .error "boom") =
      .ok [("answer", .str FALLBACK_ANSWER), ("citations", .arr .nil)] :=
  answer_empty_results_short_circuit "What is the revenue?" (fun _ => .error "boom")
    (by decide)

/-- C1: for every non-blank question and non-empty retrieved-results list,
with the generative collaborator producing the parsed object `data`: if
`data` contains a citation whose `chunk_id` is not a member of the
`chunk_uid`s present in the retrieved results, or a citation missing any of
`chunk_id`/`page`/`snippet` (or that is not an object), the answer call
fails; and when every citation passes these checks and the answer/citations
shape checks hold, the parsed object is returned unchanged.  Hence every
citation in a returned answer is traceable to a retrieved chunk. -/
theorem answer_citation_guardrail (question : String) (results : List Dict)
    (genParsed : String → Except String Dict) (data : Dict)
    (hq : pyStrip question ≠ "") (hres : results ≠ [])
    (hgen : genParsed (answer_prompt question results) = .ok data) :
    ((∃ c ∈ citationList data, citationOk (allowed_uids results) c = false) →
      ∃ e, answer_with_citations question results genParsed = .error e) ∧
    (dictHasKey data "answer" = true →
      (∃ l, dictGet data "citations" = some (.arr l)) →
      (∀ c ∈ citationList data, citationOk (allowed_uids results) c = true) →
      answer_with_citations question results genParsed = .ok data) := by
  have hbase : answer_with_citations question results genParsed =
      (if ¬ (dictHasKey data "answer" ∧ dictHasKey data "citations") then
        (.error "Gemini JSON missing keys." : Except String Dict)
      else
        match dictGet data "citations" with
        | some (.arr cits) =>
          match checkCitations (allowed_uids results) cits.toList with
          | .error e => .error e
          | .ok _ => .ok data
        | _ => .error "citations must be a list") := by
    simp only [answer_with_citations, if_neg hq, if_neg hres, hgen]
  constructor
  · rintro ⟨c, hc, hbad⟩
    by_cases hshape : (dictHasKey data "answer" ∧ dictHasKey data "citations")
    · rw [hbase, if_neg (not_not_intro hshape)]
      rcases hcit : dictGet data "citations" with _ | v
      · exfalso
        have h2 := hshape.2
        rw [dictHasKey, hcit] at h2
        simp at h2
      · match v with
        | .null | .bool _ | .num _ | .str _ | .obj _ => exact ⟨_, rfl⟩
        | .arr l =>
          have hcl : citationList data = l.toList := by
            rw [citationList, hcit]
          rw [hcl] at hc
          have hnok : checkCitations (allowed_uids results) l.toList ≠ .ok () := by
            intro hok
            have := (checkCitations_ok_iff _ _).1 hok c hc
            rw [this] at hbad
            exact absurd hbad (by simp)
          show ∃ e, (match checkCitations (allowed_uids results) l.toList with
            | .error e => (.error e : Except String Dict)
            | .ok _ => .ok data) = .error e
          rcases hck : checkCitations (allowed_uids results) l.toList with e | u
          · exact ⟨e, rfl⟩
          · cases u
            exact absurd hck hnok
    · rw [hbase, if_pos hshape]
      exact ⟨_, rfl⟩
  · intro hans hcitarr hall
    obtain ⟨l, hl⟩ := hcitarr
    have hkey : dictHasKey data "citations" = true := by
      rw [dictHasKey, hl]
      rfl
    have hcl : citationList data = l.toList := by
      rw [citationList, hl]
    have hok : checkCitations (allowed_uids results) l.toList = .ok () :=
      (checkCitations_ok_iff _ _).2 (by rw [← hcl]; exact hall)
    rw [hbase, if_neg (not_not_intro ⟨hans, hkey⟩), hl]
    show (match checkCitations (allowed_uids results) l.toList with
      | .error e => (.error e : Except String Dict)
      | .ok _ => .ok data) = .ok data
    rw [hok]

/-- Witness for C1 at the spec's concrete guardrail example: retrieved set
of chunk_uids `d1_0` and `d1_1`; a generation citing `d1_2` fails; one citing
only `d1_0` is returned unchanged. -/
theorem answer_citation_guardrail_witness :
    (∃ e, answer_with_citations "What is X?"
      [[("chunk_uid", .str "d1_0"), ("page_number", .num 1), ("text", .str "X is Y.")],
       [("chunk_uid", .str "d1_1"), ("page_number", .num 2), ("text", .str "More.")]]
      (fun _ => .ok [("answer", .str "X is Y."),
        ("citations", .arr (JArr.ofList [.obj (JObj.ofList
          [("chunk_id", .str "d1_2"), ("page", .num 1), ("snippet", .str "s")])]))]) =
      .error e) ∧
    answer_with_citations "What is X?"
      [[("chunk_uid", .str "d1_0"), ("page_number", .num 1), ("text", .str "X is Y.")],
       [("chunk_uid", .str "d1_1"), ("page_number", .num 2), ("text", .str "More.")]]
      (fun _ => .ok [("answer", .str "X is Y."),
        ("citations", .arr (JArr.ofList [.obj (JObj.ofList
          [("chunk_id", .str "d1_0"), ("page", .num 1), ("snippet", .str "s")])]))]) =
      .ok [("answer", .str "X is Y."),
        ("citations", .arr (JArr.ofList [.obj (JObj.ofList
          [("chunk_id", .str "d1_0"), ("page", .num 1), ("snippet", .str "s")])]))] := by
  constructor
  · exact (answer_citation_guardrail "What is X?"
      [[("chunk_uid", .str "d1_0"), ("page_number", .num 1), ("text", .str "X is Y.")],
       [("chunk_uid", .str "d1_1"), ("page_number", .num 2), ("text", .str "More.")]]
      (fun _ => .ok [("answer", .str "X is Y."),
        ("citations", .arr (JArr.ofList [.obj (JObj.ofList
          [("chunk_id", .str "d1_2"), ("page", .num 1), ("snippet", .str "s")])]))])
      [("answer", .str "X is Y."),
        ("citations", .arr (JArr.ofList [.obj (JObj.ofList
          [("chunk_id", .str "d1_2"), ("page", .num 1), ("snippet", .str "s")])]))]
      (by decide) (by decide) rfl).1
      ⟨.obj (JObj.ofList [("chunk_id", .str "d1_2"), ("page", .num 1), ("snippet", .str "s")]),
        by decide, by decide⟩
  · exact (answer_citation_guardrail "What is X?"
      [[("chunk_uid", .str "d1_0"), ("page_number", .num 1), ("text", .str "X is Y.")],
       [("chunk_uid", .str "d1_1"), ("page_number", .num 2), ("text", .str "More.")]]
      (fun _ => .ok [("answer", .str "X is Y."),
        ("citations", .arr (JArr.ofList [.obj (JObj.ofList
          [("chunk_id", .str "d1_0"), ("page", .num 1), ("snippet", .str "s")])]))])
      [("answer", .str "X is Y."),
        ("citations", .arr (JArr.ofList [.obj (JObj.ofList
          [("chunk_id", .str "d1_0"), ("page", .num 1), ("snippet", .str "s")])]))]
      (by decide) (by decide) rfl).2 (by decide) ⟨_, rfl⟩ (by decide)
